import Mathlib

/-!
Shallow embedding of the terminal-emulator core (escape parser, screen grid,
action sink, byte pump) of the `outermost` repository.

Conventions of the embedding:
- C++ `int` fields (`w_`, `h_`, `x_`, `y_`, CSI arguments) are modelled as `Int`;
  `u8`/`u32` values (bytes, runes, colors, attribute bits) as `Nat`.
- Operations that can hit undefined behaviour in the C++ (out-of-bounds
  `std::vector` indexing, `back()` on an empty vector, signed-integer overflow,
  `resize` to a negative size, a failed `CHECK`) return `Option`, with `none`
  for the undefined/aborting executions.
- The unbounded do-while loop of `Grid::Tab` is modelled with explicit fuel
  (`Grid.tabFuel`); `Grid.tab` supplies a fuel bound that the termination
  theorems show to be sufficient exactly when the loop terminates at all.
-/

/-- A screen cell: unicode scalar, fg/bg palette indices, attribute bits
(`kBold = 1`, `kItalic = 2`, `kUnderline = 4`, `kInverse = 8`).
Mirrors `struct Cell` of the source. -/
structure Cell where
  rune : Nat
  fg : Nat
  bg : Nat
  attr : Nat
deriving DecidableEq, Repr

/-- A value-initialized `Cell()`: `rune` is zero-initialized, the default
member initializers give `fg = kDefaultFg = 7`, `bg = kDefaultBg = 0`,
`attr = 0`. -/
def Cell.blank : Cell := ⟨0, 7, 0, 0⟩

/-- `Shell::Format`: a copy of the current style with the rune replaced. -/
def Cell.format (style : Cell) (rune : Nat) : Cell := { style with rune := rune }

/-- The screen grid: `cells_`, `w_`, `h_`, and the cursor `x_`, `y_`.
The private members start as `w_ = 0, h_ = 0, x_ = 0, y_ = -1`. -/
structure Grid where
  cells : List (List Cell)
  w : Int
  h : Int
  x : Int
  y : Int
deriving DecidableEq, Repr

/-- The member-initializer state of a `Grid` object before its constructor
body runs. -/
def Grid.zero : Grid := ⟨[], 0, 0, 0, -1⟩

/-- Checked conversion of a C++ `int` index into a vector of length `n`:
`none` models the undefined behaviour of `operator[]` out of range. -/
def toIndex (i : Int) (n : Nat) : Option Nat :=
  if 0 ≤ i ∧ i < (n : Int) then some i.toNat else none

/-- `std::vector::resize(n)` on a row: truncate to `n` or pad with
value-initialized cells. -/
def resizeRow (row : List Cell) (n : Nat) : List Cell :=
  row.take n ++ List.replicate (n - row.length) Cell.blank

/-- `Grid::Resize(w, h)`.  `CHECK(w > 0 && h > 0)` aborts on non-positive
arguments (modelled as `none`).  Height growth inserts `dh` rows at the top
(the source appends then swaps downward, which rotates the appended empties
to the front); height shrink deletes rows from the top (swap up, then chop).
The swap loops index `cells_` up to `h_ - 1`, so a grid whose vector is
shorter than `h_` would index out of bounds (modelled as `none`; every grid
this program builds keeps `cells_.size() == h_`).  Then every row longer
than `w` is truncated, `x_` is clamped to `w`, and `y_ += dh` is NOT
clamped. -/
def Grid.resizeRows (g : Grid) (h : Int) : Option (List (List Cell)) :=
  if h - g.h = 0 then some g.cells
  else if 0 < h - g.h then
    let base := g.cells.take h.toNat ++
      List.replicate (h.toNat - g.cells.length) ([] : List Cell)
    some (base.drop g.h.toNat ++ base.take g.h.toNat)
  else
    if g.cells.length < g.h.toNat then none
    else some ((g.cells.drop (g.h - h).toNat).take h.toNat)

/-- The rest of `Grid::Resize`: width truncation, `x_` clamp, `h_ = h`,
`w_ = w`.  `y_ += dh` runs only under `if (dh)` in the source, but adding
`dh = 0` is the identity, so it is applied unconditionally here. -/
def Grid.resize (g : Grid) (w h : Int) : Option Grid :=
  if ¬ (0 < w ∧ 0 < h) then none
  else match g.resizeRows h with
    | none => none
    | some cells =>
      some { cells := cells.map fun row =>
               if w < (row.length : Int) then row.take w.toNat else row,
             w := w, h := h,
             x := if w < g.x then w else g.x,
             y := g.y + (h - g.h) }

/-- `Grid::Grid(w, h)`: run `Resize(w, h)` from the member-initializer state,
then `row.resize(w)` on every row. -/
def mkGrid (w h : Int) : Option Grid :=
  (Grid.zero.resize w h).map fun g =>
    { g with cells := g.cells.map fun row => resizeRow row (w.toNat) }

/-- `Grid::CarriageReturn`. -/
def Grid.carriageReturn (g : Grid) : Grid := { g with x := 0 }

/-- `Grid::ShiftUp`: clear row 0 then rotate rows `1 .. h_-1` up by one, so
the cleared row ends at the bottom.  `cells_[0]` on an empty vector and the
swaps past the end of `cells_` are undefined behaviour (`none`). -/
def Grid.shiftUp (g : Grid) : Option Grid :=
  if g.cells.isEmpty then none
  else if (g.cells.length : Int) < g.h then none
  else
    let cleared := g.cells.set 0 []
    if g.h ≤ 0 then some { g with cells := cleared }
    else some { g with cells :=
      (cleared.take g.h.toNat).drop 1 ++ [[]] ++ cleared.drop g.h.toNat }

/-- `Grid::FixWidth`: `row.size() <= x_` compares after conversion to
`size_t`, so a negative `x_` also takes the resize branch; `resize` of
`std::min(x_ + 1, w_)` when that minimum is negative converts to a huge
`size_t` and aborts (`none`). -/
def Grid.fixWidth (g : Grid) : Option Grid :=
  match toIndex g.y g.cells.length with
  | none => none
  | some yi =>
    let row := g.cells.getD yi []
    if g.x < 0 ∨ (row.length : Int) ≤ g.x then
      let n := min (g.x + 1) g.w
      if n < 0 then none
      else some { g with cells := g.cells.set yi (resizeRow row n.toNat) }
    else some g

/-- `Grid::LineFeed`: scroll at the bottom row, otherwise advance `y_`;
then `FixWidth`. -/
def Grid.lineFeed (g : Grid) : Option Grid :=
  match (if g.y + 1 = g.h then g.shiftUp else some { g with y := g.y + 1 }) with
  | none => none
  | some g₁ => g₁.fixWidth

/-- The unconditional tail of `Grid::Put`: fetch the cursor row, lazily
extend it by one cell when `x_ == row.size()` (the `int`-vs-`size_t`
comparison is false for negative `x_`), then `row[x_++] = value`. -/
def Grid.stamp (g : Grid) (value : Cell) : Option Grid :=
  match toIndex g.y g.cells.length with
  | none => none
  | some yi =>
    let row := g.cells.getD yi []
    let row := if g.x = (row.length : Int) then row ++ [Cell.blank] else row
    match toIndex g.x row.length with
    | none => none
    | some xi =>
      some { g with cells := g.cells.set yi (row.set xi value), x := g.x + 1 }

/-- `Grid::Put`: pending-wrap at `x_ == w_` first does CR + LF, then the
cell is stamped. -/
def Grid.put (g : Grid) (value : Cell) : Option Grid :=
  if g.x = g.w then
    match (g.carriageReturn).lineFeed with
    | none => none
    | some g₁ => g₁.stamp value
  else g.stamp value

/-- `Grid::IsTab`: x is a multiple of 8 (C++ `%` and `Int.emod` agree on
divisibility by 8). -/
def Grid.isTabStop (x : Int) : Bool := x % 8 = 0

/-- The do-while loop of `Grid::Tab`, with explicit fuel: `none` means the
loop either hit undefined behaviour in `Put` or did not finish within the
given fuel. -/
def Grid.tabFuel (fill : Cell) : Nat → Grid → Option Grid
  | 0, _ => none
  | n + 1, g =>
    match g.put fill with
    | none => none
    | some g₁ => if Grid.isTabStop g₁.x then some g₁ else Grid.tabFuel fill n g₁

/-- `Grid::Tab(fill)`.  The fuel `2 * w + 17` is an upper bound proved
sufficient whenever the source's unbounded loop terminates at all
(see the termination theorems); when the loop diverges, no fuel helps and
the result is `none`. -/
def Grid.tab (g : Grid) (fill : Cell) : Option Grid :=
  Grid.tabFuel fill (2 * g.w.toNat + 17) g

/-- `Grid::Move`: sets the cursor with no clamping, then `FixWidth`. -/
def Grid.move (g : Grid) (x y : Int) : Option Grid :=
  Grid.fixWidth { g with x := x, y := y }

/-- `Grid::cell(x, y)` = `cells_[y][x]` (used read-only by the tests of the
concrete scenarios; out-of-range reads do not occur there, so a default is
returned instead of modelling UB). -/
def Grid.cellAt (g : Grid) (x y : Nat) : Cell :=
  (g.cells.getD y []).getD x Cell.blank

/-! ## Escape parser -/

/-- The 14 parser states of `EscapeParser::State`. -/
inductive EPState where
  | GROUND | OSC_STRING | SOS_PM_APC_STRING
  | ESCAPE | ESCAPE_INTERMEDIATE
  | CSI_ENTRY | CSI_INTERMEDIATE | CSI_PARAM | CSI_IGNORE
  | DCS_ENTRY | DCS_INTERMEDIATE | DCS_PARAM | DCS_PASSTHROUGH | DCS_IGNORE
deriving DecidableEq, Repr

/-- Parser accumulators: `state_`, `command_`, `payload_`, `args_`,
`arg_in_progress_` of `EscapeParser` (the header declares
`arg_in_progress_`; the `ParamParse` in `src/` never reads it). -/
structure EP where
  state : EPState
  command : List Nat
  payload : List Nat
  args : List Int
  argInProgress : Bool
deriving DecidableEq, Repr

/-- Events fired through the `EscapeParser::Actions` interface, in the order
the callbacks run. -/
inductive Ev where
  | control (c : Nat)
  | escape (command : List Nat)
  | csi (command : List Nat) (args : List Int)
  | dsc (command : List Nat) (args : List Int) (payload : List Nat)
  | osc (payload : List Nat)
deriving DecidableEq, Repr

/-- `EscapeParser::Clear`. -/
def EP.clear (p : EP) : EP :=
  { p with command := [], payload := [], args := [], argInProgress := false }

/-- The constructor runs `Clear()`; `state_` has no initializer in the
source (in practice it is the zero enumerator `GROUND`, which is also the
documented initial state), so the embedding starts at `GROUND`. -/
def EP.start : EP := ⟨EPState.GROUND, [], [], [], false⟩

/-- `EscapeParser::Exit`: events fired when leaving the current state. -/
def EP.exitEvents (p : EP) : List Ev :=
  match p.state with
  | .OSC_STRING => [.osc p.payload]
  | .DCS_PASSTHROUGH => [.dsc p.command p.args p.payload]
  | _ => []

/-- `EscapeParser::Enter`: entry actions of the target state. -/
def EP.enter (p : EP) (s : EPState) : EP :=
  let p := { p with state := s }
  match s with
  | .ESCAPE | .DCS_ENTRY | .CSI_ENTRY => p.clear
  | _ => p

/-- `EscapeParser::Transition`: exit actions of the old state (`p₀`), then
the transition action (whose mutations produced `p₁` and whose emitted
events are `evs`), then the entry actions of `s`. -/
def EP.goto (p₀ p₁ : EP) (s : EPState) (evs : List Ev) : EP × List Ev :=
  (EP.enter p₁ s, p₀.exitEvents ++ evs)

/-- The type of a `ParamParse` implementation: given `args_`,
`arg_in_progress_` and the byte, return whether the byte was a parameter
byte together with the updated accumulators, or `none` on undefined
behaviour. -/
def ParamStep : Type :=
  List Int → Bool → Nat → Option (Bool × List Int × Bool)

/-- `EscapeParser::ParamParse` exactly as in `src/escape_parser.cc`:
`';'` pushes an eager 0; a digit updates `args_.back()` — undefined
behaviour when `args_` is empty (`none`), and signed-`int` overflow past
`2^31 - 1` is also undefined (`none`).  `arg_in_progress_` is never read
or written. -/
def ParamParse : ParamStep := fun args ip c =>
  if c = 0x3B then some (true, args ++ [0], ip)
  else if 0x30 ≤ c ∧ c ≤ 0x39 then
    match args.getLast? with
    | none => none
    | some a =>
      let v : Int := a * 10 + ((c : Int) - 0x30)
      if 2147483647 < v then none
      else some (true, args.dropLast ++ [v], ip)
  else some (false, args, ip)

/-- Modelled from the spec: the "lazy push on first digit" variant of
`EscapeParser::ParamParse` that the specification says the source also
contains and mandates ("a leading digit pushes a new integer; subsequent
digits multiply by 10 and add; `';'` opens a new (implicit zero) parameter
on next digit; empty `args` means no parameters supplied").  This is the
implementation that uses the `arg_in_progress_` flag declared in
`escape_parser.h`; the files under `src/` declare the flag but do not
contain this variant. -/
def ParamParseLazy : ParamStep := fun args ip c =>
  if c = 0x3B then
    if ip then some (true, args, false) else some (true, args ++ [0], false)
  else if 0x30 ≤ c ∧ c ≤ 0x39 then
    let d : Int := (c : Int) - 0x30
    if ip then
      match args.getLast? with
      | none => none
      | some a =>
        if 2147483647 < a * 10 + d then none
        else some (true, args.dropLast ++ [a * 10 + d], true)
    else
      some (true, args ++ [d], true)
  else some (false, args, ip)

/-- The `ESCAPE_INTERMEDIATE` rule (also the fallthrough tail of the
`ESCAPE` case). -/
def EP.escInterStep (p : EP) (c : Nat) : EP × List Ev :=
  if c < 0x30 then
    EP.goto p { p with command := p.command ++ [c] } .ESCAPE_INTERMEDIATE []
  else
    EP.goto p { p with command := p.command ++ [c] } .GROUND
      [.escape (p.command ++ [c])]

/-- The `CSI_INTERMEDIATE` rule (also the fallthrough tail of `CSI_ENTRY`
and `CSI_PARAM`). -/
def EP.csiInterStep (p : EP) (c : Nat) : EP × List Ev :=
  if 0x40 ≤ c then
    EP.goto p { p with command := p.command ++ [c] } .GROUND
      [.csi (p.command ++ [c]) p.args]
  else if c < 0x30 then
    EP.goto p { p with command := p.command ++ [c] } .CSI_INTERMEDIATE []
  else
    EP.goto p p .CSI_IGNORE []

/-- The `CSI_PARAM` rule: try `ParamParse`, else fall through to
`CSI_INTERMEDIATE`. -/
def EP.csiParamStep (pp : ParamStep) (p : EP) (c : Nat) : Option (EP × List Ev) :=
  match pp p.args p.argInProgress c with
  | none => none
  | some (ok, args, ip) =>
    let p := { p with args := args, argInProgress := ip }
    if ok then some (EP.goto p p .CSI_PARAM [])
    else some (EP.csiInterStep p c)

/-- The `DCS_INTERMEDIATE` rule (also the fallthrough tail of `DCS_ENTRY`
and `DCS_PARAM`); a final byte moves to `DCS_PASSTHROUGH` with the byte
appended to the payload. -/
def EP.dcsInterStep (p : EP) (c : Nat) : EP × List Ev :=
  if 0x40 ≤ c then
    EP.goto p { p with payload := p.payload ++ [c] } .DCS_PASSTHROUGH []
  else if c < 0x30 then
    EP.goto p { p with command := p.command ++ [c] } .DCS_INTERMEDIATE []
  else
    EP.goto p p .DCS_IGNORE []

/-- The `DCS_PARAM` rule. -/
def EP.dcsParamStep (pp : ParamStep) (p : EP) (c : Nat) : Option (EP × List Ev) :=
  match pp p.args p.argInProgress c with
  | none => none
  | some (ok, args, ip) =>
    let p := { p with args := args, argInProgress := ip }
    if ok then some (EP.goto p p .DCS_PARAM [])
    else some (EP.dcsInterStep p c)

/-- `EscapeParser::Handle`, parameterized over the `ParamParse`
implementation.  Returns the updated parser together with the events fired,
or `none` when the byte drives `ParamParse` into undefined behaviour. -/
def EP.handleWith (pp : ParamStep) (p : EP) (rune : Nat) : Option (EP × List Ev) :=
  let c : Nat := if 0xA0 ≤ rune then rune % 0x80 else rune
  if c = 0x1B then some (EP.goto p p .ESCAPE [])
  else if c = 0x90 then some (EP.goto p p .DCS_ENTRY [])
  else if c = 0x9B then some (EP.goto p p .CSI_ENTRY [])
  else if c = 0x9C then some (EP.goto p p .GROUND [])
  else if c = 0x9D then some (EP.goto p p .OSC_STRING [])
  else if c = 0x98 ∨ c = 0x9E ∨ c = 0x9F then
    some (EP.goto p p .SOS_PM_APC_STRING [])
  else if c = 0x18 ∨ c = 0x1A ∨ (0x80 ≤ c ∧ c ≤ 0x8F) ∨
          (0x91 ≤ c ∧ c ≤ 0x97) ∨ c = 0x99 ∨ c = 0x9A then
    some (EP.goto p p .GROUND [.control c])
  else if c = 0x7F ∧ p.state ≠ .OSC_STRING then some (p, [])
  else if c < 0x20 then
    match p.state with
    | .GROUND | .ESCAPE | .ESCAPE_INTERMEDIATE
    | .CSI_ENTRY | .CSI_INTERMEDIATE | .CSI_PARAM | .CSI_IGNORE =>
      some (p, [.control c])
    | .DCS_PASSTHROUGH => some ({ p with payload := p.payload ++ [c] }, [])
    | _ => some (p, [])
  else
    match p.state with
    | .ESCAPE =>
      if c = 0x50 then some (EP.goto p p .DCS_ENTRY [])
      else if c = 0x5B then some (EP.goto p p .CSI_ENTRY [])
      else if c = 0x58 ∨ c = 0x5E ∨ c = 0x5F then
        some (EP.goto p p .SOS_PM_APC_STRING [])
      else if c = 0x5D then some (EP.goto p p .OSC_STRING [])
      else some (EP.escInterStep p c)
    | .ESCAPE_INTERMEDIATE => some (EP.escInterStep p c)
    | .CSI_ENTRY =>
      if 0x3A < c ∧ c < 0x40 then
        some (EP.goto p { p with command := p.command ++ [c] } .CSI_PARAM [])
      else EP.csiParamStep pp p c
    | .CSI_PARAM => EP.csiParamStep pp p c
    | .CSI_INTERMEDIATE => some (EP.csiInterStep p c)
    | .CSI_IGNORE =>
      if 0x40 ≤ c then some (EP.goto p p .GROUND []) else some (p, [])
    | .DCS_ENTRY =>
      if 0x3A < c ∧ c < 0x40 then
        -- the source transitions to CSI_PARAM here, not DCS_PARAM
        some (EP.goto p { p with command := p.command ++ [c] } .CSI_PARAM [])
      else EP.dcsParamStep pp p c
    | .DCS_PARAM => EP.dcsParamStep pp p c
    | .DCS_INTERMEDIATE => some (EP.dcsInterStep p c)
    | .DCS_PASSTHROUGH => some ({ p with payload := p.payload ++ [c] }, [])
    | .DCS_IGNORE =>
      if c = 0x9C then some (EP.goto p p .GROUND []) else some (p, [])
    | .OSC_STRING => some ({ p with payload := p.payload ++ [c] }, [])
    | .SOS_PM_APC_STRING => some (p, [])
    | .GROUND => some (p, [])

/-- `EscapeParser::Consume`, parameterized over the `ParamParse`
implementation: the fast path returns `false` (print it) for `GROUND` and a
scalar in `[0x20, 0x80)` or `[0xA0, ∞)`; otherwise the byte is consumed and
handled. -/
def EP.consumeWith (pp : ParamStep) (p : EP) (rune : Nat) :
    Option (Bool × EP × List Ev) :=
  if p.state = EPState.GROUND then
    if 0x20 ≤ rune ∧ rune < 0x80 then some (false, p, [])
    else if 0xA0 ≤ rune then some (false, p, [])
    else (EP.handleWith pp p rune).map fun q => (true, q.1, q.2)
  else (EP.handleWith pp p rune).map fun q => (true, q.1, q.2)

/-- `EscapeParser::Handle` as compiled from `src/escape_parser.cc`. -/
def EP.handle (p : EP) (rune : Nat) : Option (EP × List Ev) :=
  EP.handleWith ParamParse p rune

/-- `EscapeParser::Consume` as compiled from `src/`. -/
def EP.consume (p : EP) (rune : Nat) : Option (Bool × EP × List Ev) :=
  EP.consumeWith ParamParse p rune

/-- Feed a byte sequence to a bare parser, collecting the fired events. -/
def EP.runWith (pp : ParamStep) (p : EP × List Ev) (bytes : List Nat) :
    Option (EP × List Ev) :=
  bytes.foldl
    (fun acc b => acc.bind fun pe =>
      (EP.consumeWith pp pe.1 b).map fun r => (r.2.1, pe.2 ++ r.2.2))
    (some p)

/-! ## Action sink (`Shell`) and byte pump (`Shell::Read`) -/

/-- One iteration of the SGR parameter loop in `Shell::CSI` (the
`for (int a : args)` switch), acting on the current style `format_`. -/
def sgrStep (f : Cell) (a : Int) : Cell :=
  if a = 0 then Cell.blank
  else if a = 1 then { f with attr := f.attr ||| 1 }
  else if a = 2 then { f with attr := f.attr &&& 254 }
  else if a = 3 then { f with attr := f.attr ||| 2 }
  else if a = 4 then { f with attr := f.attr ||| 4 }
  else if a = 7 then { f with attr := f.attr ||| 8 }
  else if a = 21 then { f with attr := f.attr ||| 4 }
  else if a = 22 then { f with attr := f.attr &&& 254 }
  else if a = 23 then { f with attr := f.attr &&& 253 }
  else if a = 24 then { f with attr := f.attr &&& 251 }
  else if a = 27 then { f with attr := f.attr &&& 247 }
  else if a = 5 ∨ a = 8 ∨ a = 9 ∨ a = 25 ∨ a = 28 ∨ a = 29 then f
  else if a = 39 then { f with fg := 7 }
  else if a = 49 then { f with bg := 0 }
  else if 30 ≤ a ∧ a < 38 then { f with fg := (a - 30).toNat }
  else if 40 ≤ a ∧ a < 48 then { f with bg := (a - 40).toNat }
  else if 90 ≤ a ∧ a < 98 then { f with fg := (8 + a - 90).toNat }
  else if 100 ≤ a ∧ a < 108 then { f with bg := (8 + a - 100).toNat }
  else f

/-- The body of `case 'm':` in `Shell::CSI`: the `[38, 5, n]` / `[48, 5, n]`
triplets first, else the per-parameter loop. -/
def Shell.CSIm (f : Cell) (args : List Int) : Cell :=
  if args.length = 3 ∧ args.getD 0 0 = 38 ∧ args.getD 1 0 = 5 then
    { f with fg := if args.getD 2 0 < 0 ∨ 256 ≤ args.getD 2 0
                   then 7 else (args.getD 2 0).toNat }
  else if args.length = 3 ∧ args.getD 0 0 = 48 ∧ args.getD 1 0 = 5 then
    { f with bg := if args.getD 2 0 < 0 ∨ 256 ≤ args.getD 2 0
                   then 0 else (args.getD 2 0).toNat }
  else args.foldl sgrStep f

/-- The state owned by `Shell` that parser events can touch: the current
style `format_` and the grid.  (The write queue and the debug history rings
are not involved in any event handling.) -/
structure Term where
  style : Cell
  grid : Grid
  ep : EP
deriving DecidableEq, Repr

/-- Dispatch of one parser event by `Shell`'s overrides: `Control` handles
CR, LF and TAB (everything else only logs); `CSI` handles exactly the
one-byte command `m` (everything else only logs); `Escape`, `DSC` and `OSC`
reach only the logging `DebugActions`. -/
def Term.applyEvent (t : Term) : Ev → Option Term
  | .control c =>
    if c = 0x0D then some { t with grid := t.grid.carriageReturn }
    else if c = 0x0A then (t.grid.lineFeed).map fun g => { t with grid := g }
    else if c = 0x09 then
      (t.grid.tab (Cell.format t.style 0x20)).map fun g => { t with grid := g }
    else some t
  | .csi command args =>
    if command = [0x6D] then some { t with style := Shell.CSIm t.style args }
    else some t
  | _ => some t

/-- One byte of the `Shell::Read` loop: consume through the parser (the
events fire synchronously inside `Handle`; they are applied here after it
returns, which is equivalent because `Handle` never reads the grid or the
style); a byte the parser does not consume is stamped when printable
(`isprint` in the C locale: `[0x20, 0x7E]`) and discarded otherwise. -/
def Term.feedByteWith (pp : ParamStep) (t : Term) (b : Nat) : Option Term :=
  match EP.consumeWith pp t.ep b with
  | none => none
  | some (consumed, p, evs) =>
    let t := { t with ep := p }
    if consumed then evs.foldlM Term.applyEvent t
    else if 0x20 ≤ b ∧ b ≤ 0x7E then
      (t.grid.put (Cell.format t.style b)).map fun g => { t with grid := g }
    else some t

/-- Drain one chunk of bytes (one `Shell::Read` call) into the terminal. -/
def Term.feedWith (pp : ParamStep) (o : Option Term) (bytes : List Nat) :
    Option Term :=
  bytes.foldl (fun acc b => acc.bind fun t => Term.feedByteWith pp t b) o

/-- Feed a list of chunks through successive `Shell::Read` calls. -/
def Term.feedChunksWith (pp : ParamStep) (o : Option Term)
    (chunks : List (List Nat)) : Option Term :=
  chunks.foldl (Term.feedWith pp) o

/-- The byte-pump step as compiled from `src/` (eager `ParamParse`). -/
def Term.feedByte (t : Term) (b : Nat) : Option Term :=
  Term.feedByteWith ParamParse t b

/-- Drain a chunk, as compiled from `src/`. -/
def Term.feed (o : Option Term) (bytes : List Nat) : Option Term :=
  Term.feedWith ParamParse o bytes

/-- `Shell`'s construction: `format_` is a default `Cell` (its `rune` is
formally indeterminate but never read before being overwritten by
`Format`; it is modelled as 0), the grid is `Grid(80, 25)`, the parser
starts cleared in `GROUND`. -/
def Term.start : Option Term :=
  (mkGrid 80 25).map fun g => ⟨Cell.blank, g, EP.start⟩

/-! ## Helper lemmas -/

theorem getD_set_self (l : List (List Cell)) (i : Nat) (a : List Cell)
    (h : i < l.length) : (l.set i a).getD i [] = a := by
  simp [List.getD, List.getElem?_set_self', List.getElem?_eq_getElem h]

theorem resizeRow_length (row : List Cell) (n : Nat) :
    (resizeRow row n).length = n := by
  simp [resizeRow]
  omega

/-! ## C10 -/

/-- C10: a freshly constructed `Grid(w, h)` (positive `w`, `h`) has its
cursor at column 0 of the bottom row: `x = 0` and `y = h - 1`, because the
constructor runs `Resize` from the sentinel `y_ = -1`. -/
theorem C10_cursor (w h : Int) (hw : 0 < w) (hh : 0 < h) :
    (mkGrid w h).map (fun g => (g.x, g.y)) = some (0, h - 1) := by
  have hrr : Grid.zero.resizeRows h = some (List.replicate h.toNat []) := by
    unfold Grid.resizeRows Grid.zero
    rw [if_neg (by simp; omega), if_pos (by simp; omega)]
    simp
  unfold mkGrid Grid.resize
  rw [if_neg (by simp [hw, hh]), hrr]
  simp only [Option.map_some, Option.map_map]
  have h3 : ¬ (w < Grid.zero.x) := by simp [Grid.zero]; omega
  simp [h3, Grid.zero]
  omega

/-- Witness for C10 at the default 80×25 construction. -/
theorem C10_witness :
    (mkGrid 80 25).map (fun g => (g.x, g.y)) = some (0, 24) := by
  simpa using C10_cursor 80 25 (by norm_num) (by norm_num)

/-! ## C5 -/

/-- C5 counterexample: the claim says every scalar outside
`GROUND ∩ ([0x20, 0x7F) ∪ [0xA0, ∞))` — including 0x7F in `GROUND` — is
marked consumed; but `Consume` tests `rune < 0x80`, so 0x7F in `GROUND` is
returned as NOT consumed (and `Handle` is not run on it). -/
theorem C5_counterexample :
    EP.consume EP.start 0x7F = some (false, EP.start, []) := by decide

/-- C5 (amended): `consume(rune)` returns `not consumed` exactly when the
state is `GROUND` and the scalar lies in `[0x20, 0x80)` (not `[0x20, 0x7F)`:
0x7F included) or `[0xA0, ∞)`; every other scalar is marked consumed and
dispatched to `handle(rune)`. -/
theorem C5_amended (p : EP) (rune : Nat) :
    EP.consume p rune =
      if p.state = EPState.GROUND ∧ ((0x20 ≤ rune ∧ rune < 0x80) ∨ 0xA0 ≤ rune)
      then some (false, p, [])
      else (EP.handle p rune).map fun q => (true, q.1, q.2) := by
  unfold EP.consume EP.consumeWith EP.handle
  by_cases hg : p.state = EPState.GROUND
  · rw [if_pos hg]
    by_cases ha : 0x20 ≤ rune ∧ rune < 0x80
    · rw [if_pos ha, if_pos ⟨hg, Or.inl ha⟩]
    · rw [if_neg ha]
      by_cases hb : 0xA0 ≤ rune
      · rw [if_pos hb, if_pos ⟨hg, Or.inr hb⟩]
      · rw [if_neg hb, if_neg (by tauto)]
  · rw [if_neg hg, if_neg (by tauto)]

/-! ## C6 -/

/-- C6: chunking-independence of the byte pump.  `Shell::Read` hands the
parser one byte at a time and all state lives in the `Shell`, so feeding
any chunking of a byte sequence produces exactly the same final state
(grid, cursor, style, parser — or the same crash) as feeding it in one
chunk. -/
theorem C6_chunking (t : Option Term) (chunks : List (List Nat)) :
    Term.feedChunksWith ParamParse t chunks = Term.feed t chunks.flatten := by
  induction chunks generalizing t with
  | nil => rfl
  | cons ck cks ih =>
    rw [List.flatten_cons]
    unfold Term.feedChunksWith at *
    rw [List.foldl_cons, ih]
    unfold Term.feed Term.feedWith
    rw [List.foldl_append]

/-! ## C9 -/

/-- Is this event one of the `Control` bytes (`CR`, `LF`, `TAB`) that
`Shell::Control` turns into a grid mutation? -/
def Ev.isGridControl : Ev → Bool
  | .control c => decide (c = 0x0D ∨ c = 0x0A ∨ c = 0x09)
  | _ => false

/-- Is this event a CSI whose command is exactly the single byte `m`? -/
def Ev.isSgr : Ev → Bool
  | .csi command _ => decide (command = [0x6D])
  | _ => false

/-- C9: every parser event other than Control CR/LF/TAB and `CSI "m"` —
unknown single-byte controls, any other CSI, and all DCS, OSC, and Escape
events — leaves the grid (cells and cursor) and the current style
unchanged (the handler returns the state untouched). -/
theorem C9_frame (t : Term) (ev : Ev) (h1 : Ev.isGridControl ev = false)
    (h2 : Ev.isSgr ev = false) : Term.applyEvent t ev = some t := by
  cases ev with
  | control c =>
    simp only [Ev.isGridControl, decide_eq_false_iff_not] at h1
    push_neg at h1
    simp [Term.applyEvent, h1.1, h1.2.1, h1.2.2]
  | csi command args =>
    simp only [Ev.isSgr, decide_eq_false_iff_not] at h2
    simp [Term.applyEvent, h2]
  | escape command => rfl
  | dsc command args payload => rfl
  | osc payload => rfl

/-- A small concrete terminal state used by witnesses. -/
def termW : Term := ⟨Cell.blank, ⟨[[Cell.blank]], 1, 1, 0, 0⟩, EP.start⟩

/-- Witness for C9: the BEL control byte (0x07) leaves the state unchanged. -/
theorem C9_witness :
    Ev.isGridControl (Ev.control 0x07) = false ∧
    Term.applyEvent termW (Ev.control 0x07) = some termW :=
  ⟨rfl, C9_frame termW (Ev.control 0x07) rfl rfl⟩

set_option maxRecDepth 10000

/-! ## C3 -/

/-- C3 counterexample: feeding `"hi\n"` (bytes 0x68 0x69 0x0A) to a fresh
default terminal does NOT leave `h` at cell (0,0), `i` at (1,0) and the
cursor at (2,1): the fresh cursor starts on the bottom row and the LF there
scrolls. -/
theorem C3_counterexample :
    (Term.feed Term.start [0x68, 0x69, 0x0A]).map
        (fun t => ((t.grid.cellAt 0 0).rune, (t.grid.cellAt 1 0).rune,
                   t.grid.x, t.grid.y)) ≠
      some (0x68, 0x69, 2, 1) := by decide

/-- C3 (amended): from a freshly constructed default Grid, feeding the
bytes `"hi\n"` through the byte pump leaves `h` and `i` on what was the
bottom row — after the LF-induced scroll they sit at cells (0,23) and
(1,23) — with the cursor at (2,24). -/
theorem C3_amended :
    (Term.feed Term.start [0x68, 0x69, 0x0A]).map
        (fun t => (t.grid.x, t.grid.y,
                   (t.grid.cellAt 0 23).rune, (t.grid.cellAt 1 23).rune)) =
      some (2, 24, 0x68, 0x69) := by decide

/-! ## C1 -/

/-- C1: the parser compiled from `src/` reaches undefined behaviour on
`"\x1b[?1;2;3h"` — at the byte `'1'` (state `CSI_PARAM`, empty `args_`)
`ParamParse` evaluates `args_.back()` on an empty vector — while the
lazy-push `ParamParse` variant that the spec mandates (and whose
`arg_in_progress_` flag `escape_parser.h` declares) parses the same bytes
without crashing and emits exactly `CSI("?h", [1, 2, 3])`. -/
theorem C1_code_bug_eval :
    EP.runWith ParamParse (EP.start, [])
        [0x1B, 0x5B, 0x3F, 0x31, 0x3B, 0x32, 0x3B, 0x33, 0x68] = none ∧
    (EP.runWith ParamParseLazy (EP.start, [])
        [0x1B, 0x5B, 0x3F, 0x31, 0x3B, 0x32, 0x3B, 0x33, 0x68]).map
        (fun r => (r.1.state, r.2)) =
      some (EPState.GROUND, [Ev.csi [0x3F, 0x68] [1, 2, 3]]) := by
  exact ⟨by decide, by decide⟩

/-! ## C7 -/

/-- C7: a `CSI "m"` event whose args are exactly `[38, 5, n]` sets the
current style's foreground to palette index `n` when `0 ≤ n < 256` and to
the default 7 otherwise, leaving the grid untouched; symmetrically
`[48, 5, n]` sets the background (default 0).  End to end (with the
spec-mandated lazy `ParamParse`, since the eager one in `src/` crashes on
the first digit — see C1), `"\x1b[38;5;200mX"` stamps `X` with
foreground 200. -/
theorem C7_sgr256 :
    (∀ (t : Term) (n : Int),
      Term.applyEvent t (Ev.csi [0x6D] [38, 5, n]) =
        some { t with style :=
          { t.style with fg := if 0 ≤ n ∧ n < 256 then n.toNat else 7 } } ∧
      Term.applyEvent t (Ev.csi [0x6D] [48, 5, n]) =
        some { t with style :=
          { t.style with bg := if 0 ≤ n ∧ n < 256 then n.toNat else 0 } }) ∧
    (Term.feedWith ParamParseLazy Term.start
        [0x1B, 0x5B, 0x33, 0x38, 0x3B, 0x35, 0x3B, 0x32, 0x30, 0x30, 0x6D, 0x58]).map
        (fun t => ((t.grid.cellAt 0 24).rune, (t.grid.cellAt 0 24).fg)) =
      some (0x58, 200) := by
  refine ⟨fun t n => ?_, by decide⟩
  constructor <;>
  · simp only [Term.applyEvent, Shell.CSIm, if_pos rfl]
    norm_num
    by_cases h : 0 ≤ n ∧ n < 256
    · rw [if_neg (by omega), if_pos h]
    · rw [if_pos (by omega), if_neg h]

/-! ## C8 -/

/-- The attribute bit set by SGR parameter `s` (`1` bold, `3` italic,
`4` underline, `7` inverse). -/
def sgrBit (s : Int) : Nat :=
  if s = 1 then 1 else if s = 3 then 2 else if s = 4 then 4
  else if s = 7 then 8 else 0

/-- C8 counterexample: from a style whose BOLD bit is already set,
SGR 1 (set bold) followed by SGR 22 (reset bold) does NOT restore the
prior style — the reset clears the bit unconditionally. -/
theorem C8_counterexample :
    Shell.CSIm (Shell.CSIm ⟨0, 7, 0, 1⟩ [1]) [22] ≠ ⟨0, 7, 0, 1⟩ := by decide

theorem setThenClearBit :
    ∀ a : Nat, a < 256 →
      (a &&& 1 = 0 → (a ||| 1) &&& 254 = a) ∧
      (a &&& 2 = 0 → (a ||| 2) &&& 253 = a) ∧
      (a &&& 4 = 0 → (a ||| 4) &&& 251 = a) ∧
      (a &&& 8 = 0 → (a ||| 8) &&& 247 = a) := by
  decide

/-- C8 (amended): for every current Style and every SGR set parameter
(1 bold, 3 italic, 4 underline, 7 inverse) whose attribute bit is NOT
already set, applying that parameter and then its corresponding reset
parameter (22, 23, 24, 27) restores exactly the prior Style; when the bit
was already set, the pair instead leaves it cleared (the counterexample),
since the reset clears unconditionally. -/
theorem C8_amended (f : Cell) (s r : Int)
    (hmem : (s, r) ∈ ([(1, 22), (3, 23), (4, 24), (7, 27)] : List (Int × Int)))
    (hlt : f.attr < 256) (hclear : f.attr &&& sgrBit s = 0) :
    Shell.CSIm (Shell.CSIm f [s]) [r] = f := by
  obtain ⟨rune, fg, bg, attr⟩ := f
  simp only [sgrBit] at hclear
  simp only [List.mem_cons, List.mem_singleton, Prod.mk.injEq] at hmem
  have hbit := setThenClearBit attr hlt
  rcases hmem with ⟨rfl, rfl⟩ | ⟨rfl, rfl⟩ | ⟨rfl, rfl⟩ | ⟨rfl, rfl⟩ <;>
    simp_all [Shell.CSIm, sgrStep]

/-- Witness for C8: bold set (SGR 1) then reset (SGR 22) on the default
style, whose bold bit is clear. -/
theorem C8_witness :
    ((1, 22) ∈ ([(1, 22), (3, 23), (4, 24), (7, 27)] : List (Int × Int))) ∧
    Cell.blank.attr < 256 ∧ Cell.blank.attr &&& sgrBit 1 = 0 ∧
    Shell.CSIm (Shell.CSIm Cell.blank [1]) [22] = Cell.blank :=
  ⟨by decide, by decide, by decide,
   C8_amended Cell.blank 1 22 (by decide) (by decide) (by decide)⟩

/-! ## Frame lemmas for the grid operations -/

theorem fixWidth_frame {g g' : Grid} (h : g.fixWidth = some g') :
    g'.x = g.x ∧ g'.y = g.y ∧ g'.w = g.w ∧ g'.h = g.h ∧
    g'.cells.length = g.cells.length := by
  unfold Grid.fixWidth at h
  split at h
  · exact absurd h (by simp)
  · simp only [] at h
    split at h
    · split at h
      · exact absurd h (by simp)
      · obtain rfl := (Option.some.injEq _ _).mp h
        simp
    · obtain rfl := (Option.some.injEq _ _).mp h
      simp

theorem shiftUp_frame {g g' : Grid} (h : g.shiftUp = some g') :
    g'.x = g.x ∧ g'.y = g.y ∧ g'.w = g.w ∧ g'.h = g.h := by
  unfold Grid.shiftUp at h
  split at h
  · exact absurd h (by simp)
  · split at h
    · exact absurd h (by simp)
    · split at h
      · obtain rfl := (Option.some.injEq _ _).mp h
        simp
      · obtain rfl := (Option.some.injEq _ _).mp h
        simp

theorem lineFeed_frame {g g' : Grid} (h : g.lineFeed = some g') :
    g'.x = g.x ∧ g'.w = g.w ∧ g'.h = g.h := by
  unfold Grid.lineFeed at h
  split at h
  · exact absurd h (by simp)
  · rename_i g₁ hmid
    obtain ⟨hx, hy, hw, hh, _⟩ := fixWidth_frame h
    split at hmid
    · obtain ⟨hx₁, _, hw₁, hh₁⟩ := shiftUp_frame hmid
      exact ⟨hx.trans hx₁, hw.trans hw₁, hh.trans hh₁⟩
    · obtain rfl := (Option.some.injEq _ _).mp hmid
      exact ⟨hx, hw, hh⟩

theorem stamp_frame {g g' : Grid} {c : Cell} (h : g.stamp c = some g') :
    g'.x = g.x + 1 ∧ g'.y = g.y ∧ g'.w = g.w ∧ g'.h = g.h ∧
    g'.cells.length = g.cells.length := by
  unfold Grid.stamp at h
  split at h
  · exact absurd h (by simp)
  · simp only [] at h
    split at h
    · exact absurd h (by simp)
    · obtain rfl := (Option.some.injEq _ _).mp h
      simp

theorem put_eq {g g' : Grid} {c : Cell} (h : g.put c = some g') :
    g'.w = g.w ∧ g'.h = g.h ∧
    g'.x = (if g.x = g.w then 1 else g.x + 1) := by
  unfold Grid.put at h
  split at h
  · rename_i hxw
    split at h
    · exact absurd h (by simp)
    · rename_i g₁ hlf
      obtain ⟨hx₁, hw₁, hh₁⟩ := lineFeed_frame hlf
      obtain ⟨hx, _, hw, hh, _⟩ := stamp_frame h
      rw [if_pos hxw]
      refine ⟨hw.trans hw₁, hh.trans hh₁, ?_⟩
      rw [hx, hx₁]
      simp [Grid.carriageReturn]
  · rename_i hxw
    obtain ⟨hx, _, hw, hh, _⟩ := stamp_frame h
    rw [if_neg hxw]
    exact ⟨hw, hh, hx⟩

theorem resize_eq {g g' : Grid} {w h : Int} (hr : g.resize w h = some g') :
    0 < w ∧ 0 < h ∧ g'.w = w ∧ g'.h = h ∧
    g'.x = (if w < g.x then w else g.x) := by
  unfold Grid.resize at hr
  split at hr
  · exact absurd hr (by simp)
  · rename_i hpos
    rw [not_not] at hpos
    split at hr
    · exact absurd hr (by simp)
    · obtain rfl := (Option.some.injEq _ _).mp hr
      exact ⟨hpos.1, hpos.2, rfl, rfl, rfl⟩

theorem move_eq {g g' : Grid} {x y : Int} (hm : g.move x y = some g') :
    g'.x = x ∧ g'.y = y ∧ g'.w = g.w ∧ g'.h = g.h := by
  unfold Grid.move at hm
  obtain ⟨hx, hy, hw, hh, _⟩ := fixWidth_frame hm
  exact ⟨hx, hy, hw, hh⟩

/-! ## C4: grid-operation sequences and the cursor invariant -/

inductive GOp where
  | put (c : Cell)
  | cr
  | lf
  | tab (c : Cell)
  | move (x y : Int)
  | resize (w h : Int)
deriving DecidableEq, Repr

def applyOp (g : Grid) : GOp → Option Grid
  | .put c => g.put c
  | .cr => some g.carriageReturn
  | .lf => g.lineFeed
  | .tab c => g.tab c
  | .move x y => g.move x y
  | .resize w h => g.resize w h

def applyOps (g : Grid) (ops : List GOp) : Option Grid :=
  List.foldlM applyOp g ops

def GOp.isMove : GOp → Bool
  | .move _ _ => true
  | _ => false

def GOp.isStamp : GOp → Bool
  | .put _ => true
  | .tab _ => true
  | _ => false

def Grid.ValidX (g : Grid) : Prop := 0 < g.w ∧ 0 ≤ g.x ∧ g.x ≤ g.w

theorem validX_put {g g' : Grid} {c : Cell} (h : g.put c = some g')
    (hv : g.ValidX) : g'.ValidX := by
  obtain ⟨hw, hh, hx⟩ := put_eq h
  obtain ⟨hv1, hv2, hv3⟩ := hv
  refine ⟨hw ▸ hv1, ?_, ?_⟩
  · rw [hx]; split <;> omega
  · rw [hx, hw]; split <;> omega

theorem validX_tabFuel {c : Cell} :
    ∀ (n : Nat) {g g' : Grid}, Grid.tabFuel c n g = some g' →
      g.ValidX → g'.ValidX := by
  intro n
  induction n with
  | zero => intro g g' h; exact absurd h (by simp [Grid.tabFuel])
  | succ n ih =>
    intro g g' h hv
    unfold Grid.tabFuel at h
    split at h
    · exact absurd h (by simp)
    · rename_i g₁ hput
      have hv₁ := validX_put hput hv
      split at h
      · obtain rfl := (Option.some.injEq _ _).mp h
        exact hv₁
      · exact ih h hv₁

theorem validX_step {g g' : Grid} {op : GOp} (hnm : op.isMove = false)
    (hv : g.ValidX) (h : applyOp g op = some g') : g'.ValidX := by
  obtain ⟨hv1, hv2, hv3⟩ := hv
  cases op with
  | put c => exact validX_put h ⟨hv1, hv2, hv3⟩
  | cr =>
    obtain rfl := (Option.some.injEq _ _).mp h
    exact ⟨hv1, by simp [Grid.carriageReturn], by simp [Grid.carriageReturn]; omega⟩
  | lf =>
    obtain ⟨hx, hw, _⟩ := lineFeed_frame h
    exact ⟨hw ▸ hv1, hx ▸ hv2, by omega⟩
  | tab c => exact validX_tabFuel _ h ⟨hv1, hv2, hv3⟩
  | move x y => exact absurd hnm (by simp [GOp.isMove])
  | resize w h' =>
    obtain ⟨hw0, _, hw, _, hx⟩ := resize_eq h
    refine ⟨hw ▸ hw0, ?_, ?_⟩
    · rw [hx]; split <;> omega
    · rw [hx, hw]; split <;> omega

theorem validX_steps :
    ∀ (ops : List GOp) {g g' : Grid}, (∀ op ∈ ops, op.isMove = false) →
      g.ValidX → applyOps g ops = some g' → g'.ValidX := by
  intro ops
  induction ops with
  | nil =>
    intro g g' _ hv h
    have h' : some g = some g' := h
    obtain rfl := (Option.some.injEq _ _).mp h'
    exact hv
  | cons op ops ih =>
    intro g g' hnm hv h
    simp only [applyOps, List.foldlM_cons] at h
    rcases hstep : applyOp g op with _ | g₁
    · rw [hstep] at h; exact absurd h (by simp)
    · rw [hstep] at h
      simp only [Option.bind_eq_bind, Option.some_bind] at h
      exact ih (fun o ho => hnm o (List.mem_cons_of_mem _ ho))
        (validX_step (hnm op (List.mem_cons_self _ _)) hv hstep) h

theorem pendingWrapChar {g g' : Grid} {op : GOp} (hnm : op.isMove = false)
    (hv : g.ValidX) (h : applyOp g op = some g') (hxw : g'.x = g'.w) :
    op.isStamp = true ∨ (op = GOp.lf ∧ g.x = g.w) ∨
    (∃ w h', op = GOp.resize w h' ∧ w ≤ g.x) := by
  obtain ⟨hv1, hv2, hv3⟩ := hv
  cases op with
  | put c => exact Or.inl rfl
  | tab c => exact Or.inl rfl
  | cr =>
    obtain rfl := (Option.some.injEq _ _).mp h
    simp [Grid.carriageReturn] at hxw
    omega
  | lf =>
    obtain ⟨hx, hw, _⟩ := lineFeed_frame h
    exact Or.inr (Or.inl ⟨rfl, by rw [← hx, ← hw]; exact hxw⟩)
  | move x y => exact absurd hnm (by simp [GOp.isMove])
  | resize w h' =>
    obtain ⟨hw0, _, hw, _, hx⟩ := resize_eq h
    refine Or.inr (Or.inr ⟨w, h', rfl, ?_⟩)
    rw [hx, hw] at hxw
    by_cases hlt : w < g.x
    · omega
    · rw [if_neg hlt] at hxw; omega

instance (g : Grid) : Decidable g.ValidX := by
  unfold Grid.ValidX; infer_instance

/-- C4 counterexample: on the grid freshly constructed as `Grid(3, 2)`,
(a) the single operation `move(5, 0)` leaves the cursor at `x = 5 > w = 3`
(`Move` does not clamp), violating `0 ≤ x ≤ w`; and (b) the sequence
put, put, put, line_feed ends with `x = 3 = w` even though the last
operation is a line feed, not a cell stamp in the last column. -/
theorem C4_counterexample :
    ((mkGrid 3 2).bind fun g => applyOps g [GOp.move 5 0]).map
        (fun g => (g.x, g.w)) = some (5, 3) ∧
    ((mkGrid 3 2).bind fun g =>
        applyOps g [GOp.put Cell.blank, GOp.put Cell.blank,
                    GOp.put Cell.blank, GOp.lf]).map
        (fun g => (g.x, g.w)) = some (3, 3) :=
  ⟨by decide, by decide⟩

/-- C4 (amended): with `move` excluded (it sets the cursor unclamped),
after any sequence of put, carriage_return, line_feed, tab, and resize
with positive arguments starting from a grid with `0 < w ∧ 0 ≤ x ≤ w`,
the cursor still satisfies `0 ≤ x ≤ w`; and a single step ends with
`x = w` only if it was a cell stamp (put/tab, necessarily in the last
column), a line_feed from an already pending-wrap cursor, or a resize that
clamped `x` (its new width `≤` the old `x`). -/
theorem C4_amended :
    (∀ (ops : List GOp) (g g' : Grid), (∀ op ∈ ops, op.isMove = false) →
        g.ValidX → applyOps g ops = some g' → g'.ValidX) ∧
    (∀ (g : Grid) (op : GOp) (g' : Grid), op.isMove = false → g.ValidX →
        applyOp g op = some g' → g'.x = g'.w →
        op.isStamp = true ∨ (op = GOp.lf ∧ g.x = g.w) ∨
        (∃ w h', op = GOp.resize w h' ∧ w ≤ g.x)) :=
  ⟨fun ops g g' hnm hv h => validX_steps ops hnm hv h,
   fun _ _ _ hnm hv h hxw => pendingWrapChar hnm hv h hxw⟩

/-- The grid built by `Grid(3, 2)`. -/
def gW3 : Grid :=
  ⟨[[Cell.blank, Cell.blank, Cell.blank],
    [Cell.blank, Cell.blank, Cell.blank]], 3, 2, 0, 1⟩

/-- `gW3` after one `put`. -/
def gW3' : Grid :=
  ⟨[[Cell.blank, Cell.blank, Cell.blank],
    [Cell.blank, Cell.blank, Cell.blank]], 3, 2, 1, 1⟩

/-- Witness for C4 at a concrete move-free sequence. -/
theorem C4_witness :
    Grid.ValidX gW3 ∧ applyOps gW3 [GOp.put Cell.blank] = some gW3' ∧
    Grid.ValidX gW3' :=
  ⟨by decide, by decide,
   C4_amended.1 [GOp.put Cell.blank] gW3 gW3' (by decide) (by decide) (by decide)⟩

/-! ## C2: validity of grids and termination of Tab -/


def Grid.Valid (g : Grid) : Prop :=
  0 < g.w ∧ 0 < g.h ∧ (g.cells.length : Int) = g.h ∧
  0 ≤ g.x ∧ g.x ≤ g.w ∧ 0 ≤ g.y ∧ g.y < g.h ∧
  (∀ row ∈ g.cells, (row.length : Int) ≤ g.w) ∧
  g.x ≤ ((g.cells.getD g.y.toNat []).length : Int)

instance (g : Grid) : Decidable g.Valid := by
  unfold Grid.Valid; infer_instance

def TabTerminates (g : Grid) (fill : Cell) : Prop :=
  ∃ n, (Grid.tabFuel fill n g).isSome = true

theorem tab3_none (fill : Cell) :
    ∀ (n : Nat) (g : Grid), g.w = 3 → 0 ≤ g.x → g.x ≤ 3 →
      Grid.tabFuel fill n g = none := by
  intro n
  induction n with
  | zero => intro g _ _ _; rfl
  | succ n ih =>
    intro g hw hx0 hx3
    unfold Grid.tabFuel
    rcases hput : g.put fill with _ | g₁
    · rfl
    · obtain ⟨hw₁, _, hx₁⟩ := put_eq hput
      have hb : 1 ≤ g₁.x ∧ g₁.x ≤ 3 := by
        rw [hx₁, hw]
        split <;> omega
      have hnstop : Grid.isTabStop g₁.x = false := by
        simp only [Grid.isTabStop, decide_eq_false_iff_not]
        omega
      show (if Grid.isTabStop g₁.x = true then some g₁
            else Grid.tabFuel fill n g₁) = none
      rw [hnstop]
      simp only [Bool.false_eq_true, if_false]
      exact ih g₁ (hw₁.trans hw) (by omega) hb.2

/-- C2 counterexample: `Grid(3, 2)` is a valid grid (`w > 0`, `h > 0`,
cursor in range), yet `tab(fill)` never terminates on it: after every
`put` the cursor x stays in `{1, 2, 3}`, which contains no multiple of 8,
so the do-while condition never becomes true. -/
theorem C2_counterexample :
    mkGrid 3 2 = some gW3 ∧ Grid.Valid gW3 ∧ ¬ TabTerminates gW3 Cell.blank := by
  refine ⟨by decide, by decide, ?_⟩
  rintro ⟨n, hn⟩
  rw [tab3_none Cell.blank n gW3 rfl (by decide) (by decide)] at hn
  simp at hn

theorem getD_mem_of_lt {l : List (List Cell)} {i : Nat} (h : i < l.length) :
    l.getD i [] ∈ l := by
  rw [List.getD_eq_getElem l [] h]
  exact List.getElem_mem h

theorem toIndex_pos {i : Int} {n : Nat} (h0 : 0 ≤ i) (h1 : i < (n : Int)) :
    toIndex i n = some i.toNat := by
  unfold toIndex
  rw [if_pos ⟨h0, h1⟩]

theorem fixWidth_spec {g : Grid} (hy0 : 0 ≤ g.y)
    (hyl : g.y < (g.cells.length : Int)) (hx0 : 0 ≤ g.x) (hw0 : 0 < g.w)
    (hrows : ∀ row ∈ g.cells, (row.length : Int) ≤ g.w) :
    ∃ g', g.fixWidth = some g' ∧ g'.x = g.x ∧ g'.y = g.y ∧ g'.w = g.w ∧
      g'.h = g.h ∧ g'.cells.length = g.cells.length ∧
      (∀ row ∈ g'.cells, (row.length : Int) ≤ g.w) ∧
      min (g.x + 1) g.w ≤ ((g'.cells.getD g.y.toNat []).length : Int) := by
  have hylt : g.y.toNat < g.cells.length := by omega
  unfold Grid.fixWidth
  rw [toIndex_pos hy0 hyl]
  simp only []
  by_cases hcond : g.x < 0 ∨ ((g.cells.getD g.y.toNat []).length : Int) ≤ g.x
  · rw [if_pos hcond, if_neg (by omega : ¬ (min (g.x + 1) g.w < 0))]
    refine ⟨_, rfl, rfl, rfl, rfl, rfl, by simp, ?_, ?_⟩
    · intro row hmem
      rcases List.mem_or_eq_of_mem_set hmem with hmem | rfl
      · exact hrows row hmem
      · rw [resizeRow_length]
        omega
    · rw [getD_set_self _ _ _ hylt, resizeRow_length]
      omega
  · rw [if_neg hcond]
    exact ⟨g, rfl, rfl, rfl, rfl, rfl, rfl, hrows, by omega⟩

theorem shiftUp_spec {g : Grid} (hh0 : 0 < g.h)
    (hlen : (g.cells.length : Int) = g.h) :
    g.shiftUp = some { g with cells := g.cells.drop 1 ++ [[]] } := by
  have hlen' : g.cells.length = g.h.toNat := by omega
  have hne : ¬ g.cells.isEmpty = true := by
    simp only [List.isEmpty_iff]
    intro h0
    rw [h0] at hlen
    simp at hlen
    omega
  unfold Grid.shiftUp
  rw [if_neg hne, if_neg (by omega : ¬ ((g.cells.length : Int) < g.h)),
      if_neg (by omega : ¬ (g.h ≤ 0))]
  have h1 : (g.cells.set 0 []).take g.h.toNat = g.cells.set 0 [] :=
    List.take_of_length_le (by simp [hlen'])
  have h2 : (g.cells.set 0 []).drop g.h.toNat = [] :=
    List.drop_eq_nil_of_le (by simp [hlen'])
  have h3 : (g.cells.set 0 []).drop 1 = g.cells.drop 1 := by
    cases g.cells with
    | nil => simp
    | cons a as => simp
  rw [h1, h2, h3]
  simp

theorem lineFeed_spec {g : Grid} (hw0 : 0 < g.w) (hh0 : 0 < g.h)
    (hlen : (g.cells.length : Int) = g.h) (hx0 : 0 ≤ g.x)
    (hy0 : 0 ≤ g.y) (hyh : g.y < g.h)
    (hrows : ∀ row ∈ g.cells, (row.length : Int) ≤ g.w) :
    ∃ g', g.lineFeed = some g' ∧ g'.x = g.x ∧ g'.w = g.w ∧ g'.h = g.h ∧
      (g'.cells.length : Int) = g.h ∧ 0 ≤ g'.y ∧ g'.y < g.h ∧
      (∀ row ∈ g'.cells, (row.length : Int) ≤ g.w) ∧
      min (g.x + 1) g.w ≤ ((g'.cells.getD g'.y.toNat []).length : Int) := by
  unfold Grid.lineFeed
  by_cases hbot : g.y + 1 = g.h
  · rw [if_pos hbot, shiftUp_spec hh0 hlen]
    set gm : Grid := { g with cells := g.cells.drop 1 ++ [[]] } with hgm
    have hlenm : (gm.cells.length : Int) = g.h := by
      rw [hgm]
      simp
      omega
    have hrowsm : ∀ row ∈ gm.cells, (row.length : Int) ≤ g.w := by
      intro row hmem
      rw [hgm] at hmem
      simp only [List.mem_append, List.mem_singleton] at hmem
      rcases hmem with hmem | rfl
      · exact hrows row (List.drop_subset _ _ hmem)
      · simp
        omega
    obtain ⟨g', hfw, hx', hy', hw', hh', hlen', hrows', hslack'⟩ :=
      fixWidth_spec (g := gm) hy0 (by rw [hlenm]; exact hyh) hx0 hw0 hrowsm
    refine ⟨g', hfw, hx', hw', hh', by rw [hlen', hlenm], ?_, ?_, hrows', ?_⟩
    · rw [hy']
      exact hy0
    · rw [hy']
      exact hyh
    · rw [hy']
      exact hslack'
  · rw [if_neg hbot]
    set gm : Grid := { g with y := g.y + 1 } with hgm
    obtain ⟨g', hfw, hx', hy', hw', hh', hlen', hrows', hslack'⟩ :=
      fixWidth_spec (g := gm) (by simp [hgm]; omega)
        (by simp [hgm]; omega) hx0 hw0 hrows
    refine ⟨g', hfw, hx', hw', hh', by simp [hlen']; omega, ?_, ?_, hrows', ?_⟩
    · simp [hgm] at hy'
      omega
    · simp [hgm] at hy'
      omega
    · rw [hy']
      exact hslack'

theorem stamp_spec {g : Grid} (c : Cell) (hy0 : 0 ≤ g.y)
    (hyl : g.y < (g.cells.length : Int)) (hx0 : 0 ≤ g.x) (hxw : g.x < g.w)
    (hslack : g.x ≤ ((g.cells.getD g.y.toNat []).length : Int))
    (hrows : ∀ row ∈ g.cells, (row.length : Int) ≤ g.w) :
    ∃ g', g.stamp c = some g' ∧ g'.x = g.x + 1 ∧ g'.y = g.y ∧ g'.w = g.w ∧
      g'.h = g.h ∧ g'.cells.length = g.cells.length ∧
      (∀ row ∈ g'.cells, (row.length : Int) ≤ g.w) ∧
      g.x + 1 ≤ ((g'.cells.getD g.y.toNat []).length : Int) := by
  have hylt : g.y.toNat < g.cells.length := by omega
  have hrow0 : ((g.cells.getD g.y.toNat []).length : Int) ≤ g.w :=
    hrows _ (getD_mem_of_lt hylt)
  unfold Grid.stamp
  rw [toIndex_pos hy0 hyl]
  simp only []
  set row0 := g.cells.getD g.y.toNat [] with hrow0def
  set row1 := if g.x = (row0.length : Int) then row0 ++ [Cell.blank] else row0
    with hrow1
  have hlen1 : g.x < (row1.length : Int) := by
    rw [hrow1]
    split
    · rename_i heq
      simp
      omega
    · rename_i hne
      omega
  rw [toIndex_pos hx0 hlen1]
  have hlen1w : (row1.length : Int) ≤ g.w := by
    rw [hrow1]
    split
    · rename_i heq
      simp
      omega
    · exact hrow0
  refine ⟨_, rfl, rfl, rfl, rfl, rfl, by simp, ?_, ?_⟩
  · intro row hmem
    rcases List.mem_or_eq_of_mem_set hmem with hmem | rfl
    · exact hrows row hmem
    · simpa using hlen1w
  · rw [getD_set_self _ _ _ hylt]
    simp
    omega

theorem put_spec {g : Grid} (c : Cell) (hv : g.Valid) :
    ∃ g', g.put c = some g' ∧ g'.Valid ∧ g'.w = g.w ∧ g'.h = g.h ∧
      g'.x = (if g.x = g.w then 1 else g.x + 1) := by
  obtain ⟨hw0, hh0, hlen, hx0, hxw, hy0, hyh, hrows, hslack⟩ := hv
  unfold Grid.put
  by_cases hpend : g.x = g.w
  · rw [if_pos hpend]
    obtain ⟨g₁, hlf, hx₁, hw₁, hh₁, hlen₁, hy₁0, hy₁h, hrows₁, hslack₁⟩ :=
      lineFeed_spec (g := g.carriageReturn) hw0 hh0 hlen
        (by simp [Grid.carriageReturn]) hy0 hyh hrows
    rw [hlf]
    have hx₁0 : g₁.x = 0 := hx₁
    have hw₁' : g₁.w = g.w := hw₁
    have hh₁' : g₁.h = g.h := hh₁
    have hlen₁' : (g₁.cells.length : Int) = g.h := hlen₁
    have hy₁h' : g₁.y < g.h := hy₁h
    have hrows₁' : ∀ row ∈ g₁.cells, (row.length : Int) ≤ g₁.w := by
      intro row hmem
      rw [hw₁']
      exact hrows₁ row hmem
    have hslack₁' : 1 ≤ ((g₁.cells.getD g₁.y.toNat []).length : Int) := by
      have hmin : min ((g.carriageReturn).x + 1) (g.carriageReturn).w = 1 := by
        show min (0 + 1) g.w = 1
        omega
      rw [hmin] at hslack₁
      exact hslack₁
    obtain ⟨g₂, hst, hx₂, hy₂, hw₂, hh₂, hlen₂, hrows₂, hslack₂⟩ :=
      stamp_spec (g := g₁) c hy₁0 (by omega) (by omega) (by omega) (by omega)
        hrows₁'
    refine ⟨g₂, hst, ?_, hw₂.trans hw₁', hh₂.trans hh₁',
      by rw [hx₂, hx₁0, if_pos hpend]; omega⟩
    refine ⟨by omega, by omega, by rw [hlen₂]; omega, by omega, by omega,
      by omega, by omega, ?_, ?_⟩
    · intro row hmem
      have := hrows₂ row hmem
      omega
    · rw [hx₂, hy₂, hx₁0]
      rw [hx₁0] at hslack₂
      exact hslack₂
  · rw [if_neg hpend]
    obtain ⟨g₂, hst, hx₂, hy₂, hw₂, hh₂, hlen₂, hrows₂, hslack₂⟩ :=
      stamp_spec c hy0 (by omega) hx0 (by omega) hslack hrows
    refine ⟨g₂, hst, ?_, hw₂, hh₂, by rw [hx₂, if_neg hpend]⟩
    refine ⟨by omega, by omega, by rw [hlen₂]; omega, by omega, by omega,
      by omega, by omega, ?_, ?_⟩
    · intro row hmem
      have := hrows₂ row hmem
      omega
    · rw [hx₂, hy₂]
      exact hslack₂

def tabSteps (g : Grid) : Nat :=
  (if g.x + (8 - g.x % 8) ≤ g.w then 8 - g.x % 8 else g.w - g.x + 8).toNat

theorem tabSteps_pos {g : Grid} (hx0 : 0 ≤ g.x) (hxw : g.x ≤ g.w) :
    1 ≤ tabSteps g := by
  unfold tabSteps
  split <;> omega

theorem tabSteps_dec {g g₁ : Grid} (hx0 : 0 ≤ g.x) (hxw : g.x ≤ g.w)
    (hw8 : 8 ≤ g.w) (hw₁ : g₁.w = g.w)
    (hx₁ : g₁.x = if g.x = g.w then 1 else g.x + 1)
    (hnstop : ¬ g₁.x % 8 = 0) : tabSteps g₁ + 1 ≤ tabSteps g := by
  unfold tabSteps
  rw [hx₁, hw₁]
  by_cases hpend : g.x = g.w
  · rw [if_pos hpend]
    split <;> split <;> omega
  · rw [if_neg hpend]
    rw [hx₁, if_neg hpend] at hnstop
    split <;> split <;> omega

theorem tab_aux (fill : Cell) :
    ∀ (n : Nat) (g : Grid), g.Valid → 8 ≤ g.w → tabSteps g ≤ n →
      (Grid.tabFuel fill n g).isSome = true := by
  intro n
  induction n with
  | zero =>
    intro g hv hw8 hle
    have := tabSteps_pos hv.2.2.2.1 hv.2.2.2.2.1
    omega
  | succ n ih =>
    intro g hv hw8 hle
    obtain ⟨g₁, hput, hv₁, hw₁, hh₁, hx₁⟩ := put_spec fill hv
    unfold Grid.tabFuel
    rw [hput]
    by_cases hstop : g₁.x % 8 = 0
    · show (if Grid.isTabStop g₁.x = true then some g₁
            else Grid.tabFuel fill n g₁).isSome = true
      rw [show Grid.isTabStop g₁.x = true by
        simp [Grid.isTabStop, hstop]]
      simp
    · show (if Grid.isTabStop g₁.x = true then some g₁
            else Grid.tabFuel fill n g₁).isSome = true
      rw [show Grid.isTabStop g₁.x = false by
        simp [Grid.isTabStop, hstop]]
      simp only [Bool.false_eq_true, if_false]
      have hdec := tabSteps_dec hv.2.2.2.1 hv.2.2.2.2.1 hw8 hw₁ hx₁ hstop
      exact ih g₁ hv₁ (by omega) (by omega)

theorem tabSteps_le_fuel {g : Grid} (hx0 : 0 ≤ g.x) (hxw : g.x ≤ g.w) :
    tabSteps g ≤ 2 * g.w.toNat + 17 := by
  unfold tabSteps
  split <;> omega

/-- C2 (amended): `tab(fill)` terminates on every valid Grid whose width
is at least 8 (within the `2 * w + 17` fuel of `Grid.tab`); for widths
below 8 the loop never reaches a multiple of 8 and diverges, as the
counterexample shows. -/
theorem C2_amended (g : Grid) (fill : Cell) (hv : g.Valid) (hw8 : 8 ≤ g.w) :
    TabTerminates g fill ∧ (g.tab fill).isSome = true :=
  ⟨⟨tabSteps g, tab_aux fill (tabSteps g) g hv hw8 le_rfl⟩,
   tab_aux fill (2 * g.w.toNat + 17) g hv hw8
     (tabSteps_le_fuel hv.2.2.2.1 hv.2.2.2.2.1)⟩

/-- The grid built by `Grid(8, 2)`. -/
def gW8 : Grid :=
  ⟨[List.replicate 8 Cell.blank, List.replicate 8 Cell.blank], 8, 2, 0, 1⟩

/-- Witness for C2 on a valid 8-wide grid. -/
theorem C2_witness :
    Grid.Valid gW8 ∧ 8 ≤ gW8.w ∧ TabTerminates gW8 Cell.blank :=
  ⟨by decide, by decide,
   (C2_amended gW8 Cell.blank (by decide) (by decide)).1⟩
